import Mathlib

/-!
Shallow embedding of the 110-protocol-system repository
(src/types.ts, src/core.ts, src/protocol.ts, src/self-healing.ts, src/api.ts).

JavaScript numbers are modelled as `ℚ` (all the arithmetic the claims touch is
exact there), counters as `ℕ`, and wall-clock quantities (`Date.now()` deltas,
`uptime`) as abstract values threaded through the state.  Identifier fields
(`randomUUID()`) and timestamps are omitted from the records: no claim observes
them.  Stateful classes become explicit state structures with state-passing
functions; a `throw` becomes the `Except.error` channel.
-/

namespace Protocol110

/-! ### types.ts -/

/-- Priority levels for recommendations (src/types.ts `Priority`). -/
inductive Priority
  | low
  | medium
  | high
  | critical
deriving DecidableEq, Repr

/-- Numeric rank used by `SelfHealingSystem.registerStrategy`
(src/self-healing.ts lines 91-94): `critical:0, high:1, medium:2, low:3`. -/
def priorityRank : Priority → ℕ
  | .critical => 0
  | .high => 1
  | .medium => 2
  | .low => 3

/-- Enhancement level enum (src/types.ts `EnhancementLevel`). -/
inductive EnhancementLevel
  | baseline
  | enhanced
  | exceptional
  | transformative
deriving DecidableEq, Repr

/-- Numeric value of each enhancement level (BASELINE=100, ENHANCED=110,
EXCEPTIONAL=120, TRANSFORMATIVE=150). -/
def EnhancementLevel.score : EnhancementLevel → ℕ
  | .baseline => 100
  | .enhanced => 110
  | .exceptional => 120
  | .transformative => 150

/-- Operation status enum (src/types.ts `OperationStatus`). -/
inductive OperationStatus
  | pending
  | inProgress
  | success
  | failed
  | enhanced
deriving DecidableEq, Repr

/-- Enhancement record (src/types.ts `Enhancement`); `id`, `timestamp` and
`metadata` are omitted (environment-generated, unobserved by the claims). -/
structure Enhancement where
  description : String
  impact : EnhancementLevel
  priority : Priority
deriving DecidableEq, Repr

/-- Recommendation record (src/types.ts `Recommendation`); `id` and
`timestamp` omitted as above. -/
structure Recommendation where
  title : String
  description : String
  priority : Priority
  estimatedImpact : ℚ
  category : String
  actionable : Bool
deriving DecidableEq, Repr

/-- Protocol configuration (src/types.ts `ProtocolConfig`). -/
structure ProtocolConfig where
  minEnhancementLevel : EnhancementLevel
  enableSelfHealing : Bool
  enableSelfLearning : Bool
  enableContinuousImprovement : Bool
  monitoringInterval : ℕ
  maxRecommendations : ℕ
deriving DecidableEq, Repr

/-- Default configuration produced by the `Protocol110System` constructor when
called with an empty partial config (src/protocol.ts lines 24-32). -/
def defaultConfig : ProtocolConfig where
  minEnhancementLevel := .enhanced
  enableSelfHealing := true
  enableSelfLearning := true
  enableContinuousImprovement := true
  monitoringInterval := 60000
  maxRecommendations := 50

/-- System metrics counters (src/types.ts `SystemMetrics`); `lastUpdate`,
`implementedRecommendations` and `averageEnhancementLevel` omitted (derived or
time-valued, unobserved by the claims); `uptime` is an abstract clock delta. -/
structure SystemMetrics where
  totalOperations : ℕ
  successfulOperations : ℕ
  failedOperations : ℕ
  enhancedOperations : ℕ
  totalRecommendations : ℕ
  uptime : ℤ
deriving DecidableEq, Repr

/-- Metrics as set by `Protocol110System.initializeMetrics`
(src/protocol.ts lines 46-58). -/
def initializeMetrics : SystemMetrics where
  totalOperations := 0
  successfulOperations := 0
  failedOperations := 0
  enhancedOperations := 0
  totalRecommendations := 0
  uptime := 0

/-- Payload carried by an `OperationResult.data` field: a genuine value, a
null/undefined value, or the synthetic healed object
`\x7bhealed:true, originalError\x7d` built in `attemptSelfHealing`. -/
inductive OpData (α : Type) where
  | value (a : α)
  | nullish
  | healed (originalError : String)
deriving DecidableEq, Repr

/-- Result of a protocol operation (src/types.ts `OperationResult`);
`metadata` (executionTime/timestamp/version) omitted: time-valued. -/
structure OperationResult (α : Type) where
  success : Bool
  status : OperationStatus
  data : OpData α
  enhancements : List Enhancement
  recommendations : List Recommendation
deriving DecidableEq, Repr

/-! ### core.ts -/

/-- createSuccessResult (src/core.ts lines 150-167): success result whose
status is ENHANCED when at least one enhancement is attached, SUCCESS
otherwise. -/
def createSuccessResult {α : Type} (data : OpData α)
    (enhancements : List Enhancement) (recommendations : List Recommendation) :
    OperationResult α where
  success := true
  status := if enhancements.length > 0 then .enhanced else .success
  data := data
  enhancements := enhancements
  recommendations := recommendations

/-- Descending-impact ordering used by
`RecommendationEngine.getTopRecommendations` (src/core.ts line 135, comparator
`(a, b) => b.estimatedImpact - a.estimatedImpact`). -/
def impactDescRel (a b : Recommendation) : Prop :=
  b.estimatedImpact ≤ a.estimatedImpact

instance : DecidableRel impactDescRel := fun a b =>
  inferInstanceAs (Decidable (b.estimatedImpact ≤ a.estimatedImpact))

instance : IsTotal Recommendation impactDescRel :=
  ⟨fun a b => le_total b.estimatedImpact a.estimatedImpact⟩

instance : IsTrans Recommendation impactDescRel :=
  ⟨fun _ _ _ h1 h2 => le_trans h2 h1⟩

/-- getTopRecommendations (src/core.ts lines 133-137): copies the stored list,
stable-sorts it by descending `estimatedImpact` (JavaScript `Array.sort` is
stable per ES2019) and keeps the first `limit` entries. -/
def getTopRecommendations (recs : List Recommendation) (limit : ℕ) :
    List Recommendation :=
  (List.insertionSort impactDescRel recs).take limit

/-! ### protocol.ts — Protocol110System -/

/-- Mutable state owned by one `Protocol110System` instance: its metrics and
the two ledgers (`EnhancementTracker.enhancements`,
`RecommendationEngine.recommendations`, both append-only arrays). -/
structure ProtoState where
  metrics : SystemMetrics
  enhancements : List Enhancement
  recommendations : List Recommendation
deriving DecidableEq, Repr

/-- State of a freshly constructed `Protocol110System`: zeroed metrics and
empty ledgers. -/
def initProtoState : ProtoState where
  metrics := initializeMetrics
  enhancements := []
  recommendations := []

/-- Baseline enhancement pushed by `applyEnhancements`
(src/protocol.ts lines 135-141). -/
def baselineEnhancement (operationName : String) : Enhancement where
  description := "Enhanced " ++ operationName ++ " with 110% protocol"
  impact := .enhanced
  priority := .medium

/-- Second enhancement pushed by `applyEnhancements` when the operation result
is neither null nor undefined (src/protocol.ts lines 144-152). -/
def validationEnhancement : Enhancement where
  description := "Result validation and optimization applied"
  impact := .exceptional
  priority := .low

/-- applyEnhancements (src/protocol.ts lines 124-155): returns `[]` when
continuous improvement is disabled; otherwise pushes the baseline enhancement
into the tracker ledger, then the validation enhancement exactly when the
result is non-nullish, and returns the pushed list. -/
def applyEnhancements {α : Type} (cfg : ProtocolConfig) (st : ProtoState)
    (operationName : String) (result : Option α) :
    List Enhancement × ProtoState :=
  if !cfg.enableContinuousImprovement then ([], st)
  else
    let e1 := baselineEnhancement operationName
    match result with
    | some _ =>
        ([e1, validationEnhancement],
         { st with enhancements := st.enhancements ++ [e1, validationEnhancement] })
    | none =>
        ([e1], { st with enhancements := st.enhancements ++ [e1] })

/-- Performance recommendation created by `generateRecommendations`
(src/protocol.ts lines 171-177). -/
def perfRecommendation (operationName : String) : Recommendation where
  title := "Optimize Performance"
  description := "Consider caching results for " ++ operationName ++ " to improve performance"
  priority := .medium
  estimatedImpact := 75
  category := "performance"
  actionable := true

/-- Monitoring recommendation created by `generateRecommendations`
(src/protocol.ts lines 181-187). -/
def monitoringRecommendation (operationName : String) : Recommendation where
  title := "Enhanced Monitoring"
  description := "Add detailed metrics tracking for " ++ operationName
  priority := .low
  estimatedImpact := 50
  category := "monitoring"
  actionable := true

/-- generateRecommendations (src/protocol.ts lines 160-193): returns `[]` when
continuous improvement is disabled; otherwise pushes both recommendations into
the engine ledger, adds their count to `metrics.totalRecommendations`, and
returns the list truncated to `maxRecommendations` (`slice(0, max)`); the
ledger keeps both entries regardless of the cap. -/
def generateRecommendations (cfg : ProtocolConfig) (st : ProtoState)
    (operationName : String) : List Recommendation × ProtoState :=
  if !cfg.enableContinuousImprovement then ([], st)
  else
    let recs := [perfRecommendation operationName, monitoringRecommendation operationName]
    let st' : ProtoState :=
      { st with
        recommendations := st.recommendations ++ recs
        metrics := { st.metrics with
          totalRecommendations := st.metrics.totalRecommendations + recs.length } }
    (recs.take cfg.maxRecommendations, st')

/-- Healing recommendation created by `attemptSelfHealing`
(src/protocol.ts lines 207-213). -/
def healingRecommendation (operationName : String) : Recommendation where
  title := "Self-Healing Action"
  description := "Implemented recovery procedure for " ++ operationName
  priority := .high
  estimatedImpact := 90
  category := "self-healing"
  actionable := true

/-- attemptSelfHealing (src/protocol.ts lines 199-226): pushes one HIGH
priority healing recommendation into the engine ledger and returns a success
result carrying `\x7bhealed:true, originalError\x7d`, empty enhancements and
that single recommendation.  Its body contains no fallible step (the catch
branch at lines 222-225 is unreachable) and it never consults
`SelfHealingSystem`, so the returned result always has `success = true`. -/
def attemptSelfHealing {α : Type} (st : ProtoState) (error : String)
    (operationName : String) : OperationResult α × ProtoState :=
  let recommendation := healingRecommendation operationName
  (createSuccessResult (.healed error) [] [recommendation],
   { st with recommendations := st.recommendations ++ [recommendation] })

/-- execute (src/protocol.ts lines 63-119).  The caller-supplied operation is
modelled by its outcome `op : Except String (Option α)` (`Except.error` for a
throw, `Option` for a nullish return value).  Returns the result-or-rethrown
error together with the updated instance state. -/
def execute {α : Type} (cfg : ProtocolConfig) (st : ProtoState)
    (op : Except String (Option α)) (operationName : String) :
    Except String (OperationResult α) × ProtoState :=
  let st0 : ProtoState :=
    { st with metrics := { st.metrics with
        totalOperations := st.metrics.totalOperations + 1 } }
  match op with
  | .ok result =>
      let p1 := applyEnhancements cfg st0 operationName result
      let p2 := generateRecommendations cfg p1.2 operationName
      let st3 : ProtoState :=
        { p2.2 with metrics := { p2.2.metrics with
            successfulOperations := p2.2.metrics.successfulOperations + 1
            enhancedOperations := p2.2.metrics.enhancedOperations +
              (if p1.1.length > 0 then 1 else 0) } }
      let data : OpData α := match result with
        | some a => .value a
        | none => .nullish
      (.ok (createSuccessResult data p1.1 p2.1), st3)
  | .error e =>
      let st1 : ProtoState :=
        { st0 with metrics := { st0.metrics with
            failedOperations := st0.metrics.failedOperations + 1 } }
      if cfg.enableSelfHealing then
        let p := attemptSelfHealing (α := α) st1 e operationName
        if p.1.success then (.ok p.1, p.2) else (.error e, p.2)
      else (.error e, st1)

/-- Health-check report (src/types.ts `HealthCheck`); the nested `metrics`
object is flattened and `averageExecutionTime` (hard-coded 0) omitted. -/
structure HealthCheck where
  healthy : Bool
  status : String
  uptime : ℤ
  enhancementRate : ℚ
  successRate : ℚ
  issues : Option (List String)
deriving DecidableEq, Repr

/-- getHealthCheck (src/protocol.ts lines 240-261): `totalOps` is
`metrics.totalOperations || 1` (JavaScript falsy zero), rates are percentages,
and the system is healthy iff `successRate ≥ 80` and `uptime > 0`; a degraded
report always carries the single issue string. -/
def getHealthCheck (m : SystemMetrics) : HealthCheck :=
  let totalOps : ℕ := if m.totalOperations = 0 then 1 else m.totalOperations
  let successRate : ℚ := (m.successfulOperations : ℚ) / (totalOps : ℚ) * 100
  let enhancementRate : ℚ := (m.enhancedOperations : ℚ) / (totalOps : ℚ) * 100
  let healthy : Bool := decide (successRate ≥ 80) && decide (m.uptime > 0)
  { healthy := healthy
    status := if healthy then "healthy" else "degraded"
    uptime := m.uptime
    enhancementRate := enhancementRate
    successRate := successRate
    issues := if healthy then none else some ["Success rate below threshold"] }

/-! ### self-healing.ts — SelfHealingSystem -/

/-- Case-insensitive substring test: the meaning of `pattern.test(message)`
for one literal alternative of a `/.../i` regular expression. -/
def hasTok (message tok : String) : Bool :=
  (message.toList.map Char.toLower).tails.any
    (fun t => (tok.toList.map Char.toLower).isPrefixOf t)

/-- Meaning of an alternation regex `/t1|t2|.../i` applied to a message:
some alternative occurs in the message, case-insensitively. -/
def testPattern (tokens : List String) (message : String) : Bool :=
  tokens.any (fun tok => hasTok message tok)

/-- Healing strategy (src/self-healing.ts `HealingStrategy`): the regex is
modelled as its boolean matcher, the async action by its outcome
(`Except.error` for a thrown exception, `Except.ok b` for a returned
boolean). -/
structure HealingStrategy where
  id : String
  name : String
  description : String
  priority : Priority
  errorPattern : String → Bool
  healingAction : Except Unit Bool

/-- Healing attempt record (src/self-healing.ts `HealingAttempt`), with `id`
and `timestamp` omitted and `recoveryTime` an abstract duration. -/
structure HealingAttempt where
  errorType : String
  strategyUsed : String
  success : Bool
  recoveryTime : ℕ
deriving DecidableEq, Repr

/-- Ordering used when `registerStrategy` re-sorts the strategy list
(src/self-healing.ts lines 91-94). -/
def strategyRankLe (a b : HealingStrategy) : Prop :=
  priorityRank a.priority ≤ priorityRank b.priority

instance : DecidableRel strategyRankLe := fun a b =>
  inferInstanceAs (Decidable (priorityRank a.priority ≤ priorityRank b.priority))

instance : IsTotal HealingStrategy strategyRankLe :=
  ⟨fun a b => le_total (priorityRank a.priority) (priorityRank b.priority)⟩

instance : IsTrans HealingStrategy strategyRankLe :=
  ⟨fun _ _ _ h1 h2 => le_trans h1 h2⟩

/-- registerStrategy (src/self-healing.ts lines 89-95): appends the strategy
and stable-sorts the whole list by priority rank (`Array.sort` is stable). -/
def registerStrategy (strategies : List HealingStrategy)
    (strategy : HealingStrategy) : List HealingStrategy :=
  List.insertionSort strategyRankLe (strategies ++ [strategy])

/-- Built-in network strategy (src/self-healing.ts lines 42-53): matches
`/network|timeout|ECONNREFUSED|ETIMEDOUT/i`; its action delays then returns
true. -/
def networkRetryStrategy : HealingStrategy where
  id := "network-retry"
  name := "Network Retry"
  description := "Retry operations that failed due to network issues"
  priority := .high
  errorPattern := testPattern ["network", "timeout", "ECONNREFUSED", "ETIMEDOUT"]
  healingAction := .ok true

/-- Built-in resource strategy (src/self-healing.ts lines 56-70): matches
`/memory|ENOMEM|EMFILE|too many/i`; its action cleans up then returns true. -/
def resourceCleanupStrategy : HealingStrategy where
  id := "resource-cleanup"
  name := "Resource Cleanup"
  description := "Clean up resources and retry"
  priority := .high
  errorPattern := testPattern ["memory", "ENOMEM", "EMFILE", "too many"]
  healingAction := .ok true

/-- Built-in rate-limit strategy (src/self-healing.ts lines 73-83): matches
`/rate limit|429|too many requests/i`; its action waits then returns true. -/
def rateLimitBackoffStrategy : HealingStrategy where
  id := "rate-limit-backoff"
  name := "Rate Limit Backoff"
  description := "Wait and retry when rate limited"
  priority := .medium
  errorPattern := testPattern ["rate limit", "429", "too many requests"]
  healingAction := .ok true

/-- initializeDefaultStrategies (src/self-healing.ts lines 40-84): the three
built-ins registered in source order. -/
def defaultStrategies : List HealingStrategy :=
  registerStrategy
    (registerStrategy (registerStrategy [] networkRetryStrategy)
      resourceCleanupStrategy)
    rateLimitBackoffStrategy

/-- State of a `SelfHealingSystem` instance. -/
structure HealState where
  strategies : List HealingStrategy
  healingHistory : List HealingAttempt

/-- State of a freshly constructed `SelfHealingSystem`
(src/self-healing.ts lines 29-35). -/
def initialHealState : HealState where
  strategies := defaultStrategies
  healingHistory := []

/-- recordAttempt (src/self-healing.ts lines 127-146): push the attempt, then
`shift()` away the oldest entry when the history exceeds 100. -/
def recordAttempt (history : List HealingAttempt) (a : HealingAttempt) :
    List HealingAttempt :=
  let h := history ++ [a]
  if h.length > 100 then h.drop 1 else h

/-- heal (src/self-healing.ts lines 100-122): find the first strategy whose
pattern accepts the message; on no match record a failed `"none"` attempt and
return false; otherwise run the action, catching any exception as a failed
attempt, and record and return the action's outcome. -/
def heal (st : HealState) (errorMessage : String) : Bool × HealState :=
  match st.strategies.find? (fun s => s.errorPattern errorMessage) with
  | none =>
      let h := recordAttempt st.healingHistory ⟨errorMessage, "none", false, 0⟩
      (false, { st with healingHistory := h })
  | some strategy =>
      match strategy.healingAction with
      | .ok success =>
          let h := recordAttempt st.healingHistory ⟨errorMessage, strategy.name, success, 0⟩
          (success, { st with healingHistory := h })
      | .error _ =>
          let h := recordAttempt st.healingHistory ⟨errorMessage, strategy.name, false, 0⟩
          (false, { st with healingHistory := h })

/-! ### self-learning.ts — SelfLearningSystem -/

/-- Learned pattern statistics (src/self-learning.ts `LearningPattern`);
`id`, `lastSeen` and `metadata` omitted (environment-valued, unobserved). -/
structure LearningPattern where
  frequency : ℕ
  successRate : ℚ
deriving DecidableEq, Repr

/-- State of a `SelfLearningSystem`: the `Map` from pattern name to pattern,
modelled as a lookup function. -/
structure LearnState where
  patterns : String → Option LearningPattern

/-- Empty learner state. -/
def emptyLearnState : LearnState where
  patterns := fun _ => none

/-- recordPattern (src/self-learning.ts lines 210-240): an unseen name gets
frequency 1 and successRate 1 or 0; a seen name is updated in place with
`newFrequency = frequency+1` and
`newSuccessRate = (successRate*frequency + (success?1:0)) / newFrequency`. -/
def recordPattern (st : LearnState) (pattern : String) (success : Bool) :
    LearnState :=
  match st.patterns pattern with
  | some existing =>
      let totalOccurrences := existing.frequency + 1
      let successCount : ℚ :=
        existing.successRate * (existing.frequency : ℚ) + (if success then 1 else 0)
      { patterns := fun k =>
          if k = pattern then
            some ⟨totalOccurrences, successCount / (totalOccurrences : ℚ)⟩
          else st.patterns k }
  | none =>
      { patterns := fun k =>
          if k = pattern then some ⟨1, if success then 1 else 0⟩
          else st.patterns k }

/-- Sequence of `recordPattern` calls on one name. -/
def observeAll (st : LearnState) (pattern : String) (l : List Bool) :
    LearnState :=
  l.foldl (fun s b => recordPattern s pattern b) st

/-! ### api.ts — ProtocolApiController -/

/-- getRecommendations endpoint (src/api.ts lines 104-121): the optional
`limit` guards a JavaScript truthiness test (`limit ? top : all`), so a
missing or zero limit returns the full stored ledger. -/
def apiGetRecommendations (st : ProtoState) (limit : Option ℕ) :
    List Recommendation :=
  match limit with
  | some n => if n ≠ 0 then getTopRecommendations st.recommendations n
              else st.recommendations
  | none => st.recommendations

/-! ### Auxiliary definitions used by the theorems -/

/-- Enhancements attached to a non-thrown operation result. -/
def resultEnhancements {α : Type} : Except String (OperationResult α) → List Enhancement
  | .ok r => r.enhancements
  | .error _ => []

/-- Recommendations attached to a non-thrown operation result. -/
def resultRecommendations {α : Type} :
    Except String (OperationResult α) → List Recommendation
  | .ok r => r.recommendations
  | .error _ => []

/-- A healing attempt indexed by its recovery time, used to drive the bounded
history through many `recordAttempt` calls. -/
def indexedAttempt (i : ℕ) : HealingAttempt where
  errorType := ""
  strategyUsed := "none"
  success := false
  recoveryTime := i

/-- Sample recommendation with a given title and estimated impact. -/
def sampleRec (t : String) (i : ℚ) : Recommendation where
  title := t
  description := ""
  priority := .medium
  estimatedImpact := i
  category := ""
  actionable := true

/-! ### Theorems -/

/-- C10: `ProtocolApiController.getRecommendations` with `limit = 0` returns
the whole stored ledger, exactly as when the limit is omitted, because the
limit is applied only when truthy. -/
theorem apiGetRecommendations_zero_limit (st : ProtoState) :
    apiGetRecommendations st (some 0) = st.recommendations ∧
    apiGetRecommendations st none = st.recommendations ∧
    apiGetRecommendations st (some 0) = apiGetRecommendations st none :=
  ⟨rfl, rfl, rfl⟩

/-- C8: `getTopRecommendations limit` returns the `limit` stored
recommendations of greatest `estimatedImpact` in descending order: the result
is sorted by descending impact, is a sub-multiset of the store, has length
`min limit n`, ties keep their insertion order (stability of the sort), and on
stored impacts 30, 95, 60 the top two are the impact-95 then impact-60
entries.  The store itself is a separate, unchanged list. -/
theorem getTopRecommendations_spec :
    (∀ (recs : List Recommendation) (limit : ℕ),
        List.Sorted impactDescRel (getTopRecommendations recs limit)) ∧
    (∀ (recs : List Recommendation) (limit : ℕ),
        List.Subperm (getTopRecommendations recs limit) recs) ∧
    (∀ (recs : List Recommendation) (limit : ℕ),
        (getTopRecommendations recs limit).length = min limit recs.length) ∧
    (∀ (a b : Recommendation) (recs : List Recommendation),
        impactDescRel a b → List.Sublist [a, b] recs →
        List.Sublist [a, b] (List.insertionSort impactDescRel recs)) ∧
    ((getTopRecommendations
        [sampleRec "a" 30, sampleRec "b" 95, sampleRec "c" 60] 2).map
      (fun r => r.estimatedImpact) = [95, 60]) := by
  refine ⟨?_, ?_, ?_, ?_, by decide⟩
  · intro recs limit
    exact List.Pairwise.sublist (List.take_sublist _ _)
      (List.sorted_insertionSort impactDescRel recs)
  · intro recs limit
    exact ((List.take_sublist _ _).subperm).trans
      (List.perm_insertionSort impactDescRel recs).subperm
  · intro recs limit
    simp [getTopRecommendations]
  · intro a b recs hab hsub
    exact List.pair_sublist_insertionSort hab hsub

/-- Witness for C8: instantiates the stability clause on two concrete
recommendations with equal standing under the descending-impact relation. -/
theorem getTopRecommendations_spec_witness :
    List.Sublist [sampleRec "b" 95, sampleRec "c" 60]
      (List.insertionSort impactDescRel [sampleRec "b" 95, sampleRec "c" 60]) :=
  getTopRecommendations_spec.2.2.2.1 (sampleRec "b" 95) (sampleRec "c" 60)
    [sampleRec "b" 95, sampleRec "c" 60] (by decide) (List.Sublist.refl _)

/-- The JavaScript guard `totalOperations || 1` coincides with
`max totalOperations 1` on natural counters. -/
theorem falsyGuard_eq_max (n : ℕ) : (if n = 0 then 1 else n) = max n 1 := by
  split <;> omega

/-- C7: `getHealthCheck` derives `successRate` as
`successfulOperations / max(totalOperations, 1) * 100` and is healthy exactly
when that rate is at least 80 and uptime is positive; any unhealthy report is
"degraded" and carries the issue "Success rate below threshold"; in
particular a rate below 80 forces `healthy = false` whatever the uptime. -/
theorem getHealthCheck_spec (m : SystemMetrics) :
    ((getHealthCheck m).healthy = true ↔
      (80 ≤ (m.successfulOperations : ℚ) / ((max m.totalOperations 1 : ℕ) : ℚ) * 100 ∧
        0 < m.uptime)) ∧
    (getHealthCheck m).successRate =
      (m.successfulOperations : ℚ) / ((max m.totalOperations 1 : ℕ) : ℚ) * 100 ∧
    ((getHealthCheck m).healthy = false →
      (getHealthCheck m).status = "degraded" ∧
      (getHealthCheck m).issues = some ["Success rate below threshold"]) ∧
    ((getHealthCheck m).successRate < 80 → (getHealthCheck m).healthy = false) := by
  have hguard : (if m.totalOperations = 0 then 1 else m.totalOperations) =
      max m.totalOperations 1 := falsyGuard_eq_max m.totalOperations
  constructor
  · simp only [getHealthCheck, hguard, Bool.and_eq_true, decide_eq_true_iff, ge_iff_le,
      gt_iff_lt]
  constructor
  · simp only [getHealthCheck, hguard]
  constructor
  · intro hfalse
    simp only [getHealthCheck, hguard] at hfalse ⊢
    simp only [hfalse]
    simp
  · intro hlt
    simp only [getHealthCheck, hguard] at hlt ⊢
    have hdec : decide ((m.successfulOperations : ℚ) /
        ((max m.totalOperations 1 : ℕ) : ℚ) * 100 ≥ 80) = false :=
      decide_eq_false (not_le.mpr hlt)
    rw [hdec, Bool.false_and]

/-- Witness for C7: a metrics snapshot with success rate 20% and positive
uptime is reported unhealthy and degraded. -/
theorem getHealthCheck_spec_witness :
    (getHealthCheck ⟨5, 1, 4, 0, 0, 7⟩).healthy = false ∧
    (getHealthCheck ⟨5, 1, 4, 0, 0, 7⟩).status = "degraded" ∧
    (getHealthCheck ⟨5, 1, 4, 0, 0, 7⟩).issues = some ["Success rate below threshold"] := by
  have h := getHealthCheck_spec ⟨5, 1, 4, 0, 0, 7⟩
  have hrate : (getHealthCheck ⟨5, 1, 4, 0, 0, 7⟩).successRate < 80 := by
    rw [h.2.1]; norm_num
  have hfalse := h.2.2.2 hrate
  exact ⟨hfalse, (h.2.2.1 hfalse).1, (h.2.2.1 hfalse).2⟩

/-- C6: the healing history is strictly bounded at 100 entries: each recorded
attempt grows the history to `min (n+1) 100`, eviction is FIFO (the oldest
entry is dropped once full), every `heal` call records exactly one attempt,
and 102 sequential recordings from an empty history leave exactly the 100 most
recent attempts (the oldest 2 evicted). -/
theorem healingHistory_bound_spec :
    (∀ (h : List HealingAttempt) (a : HealingAttempt),
        h.length ≤ 100 → (recordAttempt h a).length = min (h.length + 1) 100) ∧
    (∀ (h : List HealingAttempt) (a : HealingAttempt),
        h.length = 100 → recordAttempt h a = h.drop 1 ++ [a]) ∧
    (∀ (st : HealState) (msg : String),
        ∃ a : HealingAttempt,
          (heal st msg).2.healingHistory = recordAttempt st.healingHistory a) ∧
    ((List.range 102).foldl (fun h i => recordAttempt h (indexedAttempt i)) [] =
      ((List.range 102).map indexedAttempt).drop 2) := by
  refine ⟨?_, ?_, ?_, ?_⟩
  · intro h a hle
    simp only [recordAttempt]
    split <;> simp_all <;> omega
  · intro h a hlen
    simp only [recordAttempt]
    rw [if_pos (by simp [hlen])]
    rw [List.drop_append_of_le_length (by omega)]
  · intro st msg
    rcases hfind : st.strategies.find? (fun s => s.errorPattern msg) with _ | s
    · exact ⟨⟨msg, "none", false, 0⟩, by simp [heal, hfind]⟩
    · rcases hact : s.healingAction with _ | b
      · exact ⟨⟨msg, s.name, false, 0⟩, by simp [heal, hfind, hact]⟩
      · exact ⟨⟨msg, s.name, b, 0⟩, by simp [heal, hfind, hact]⟩
  · set_option maxRecDepth 4000 in decide

/-- Witness for C6: recording into an empty history and into a full history of
100 blank attempts. -/
theorem healingHistory_bound_spec_witness :
    (recordAttempt [] (indexedAttempt 0)).length = min 1 100 ∧
    recordAttempt (List.replicate 100 (indexedAttempt 0)) (indexedAttempt 1) =
      (List.replicate 100 (indexedAttempt 0)).drop 1 ++ [indexedAttempt 1] := by
  constructor
  · have h := healingHistory_bound_spec.1 [] (indexedAttempt 0) (by simp)
    simpa using h
  · exact healingHistory_bound_spec.2.1 (List.replicate 100 (indexedAttempt 0))
      (indexedAttempt 1) (by simp)

/-- A linear scan finds the first element accepted by the predicate. -/
theorem find?_first_match {α : Type} (p : α → Bool) (pre post : List α) (s : α)
    (hpre : ∀ t ∈ pre, p t = false) (hs : p s = true) :
    (pre ++ s :: post).find? p = some s := by
  induction pre with
  | nil => simp [List.find?_cons_of_pos, hs]
  | cons a l ih =>
      have ha : p a = false := hpre a (by simp)
      rw [List.cons_append, List.find?_cons_of_neg]
      · exact ih (fun t ht => hpre t (List.mem_cons_of_mem a ht))
      · simp [ha]

/-- C5: `heal` scans the strategies in list (priority) order and runs only the
first match: with no matching strategy it records a failed attempt with
`strategyUsed = "none"` and returns false; a matching strategy whose action
returns `b` yields `b` with a matching recorded attempt; a matching strategy
whose action throws is caught, recorded as failed, and yields false; the
strategy list is untouched.  Concretely, the default engine heals
"Network timeout error" via the Network Retry strategy and rejects
"Some unknown error type" with `strategyUsed = "none"`. -/
theorem heal_spec :
    (∀ (st : HealState) (msg : String),
        (∀ s ∈ st.strategies, s.errorPattern msg = false) →
        (heal st msg).1 = false ∧
        (heal st msg).2.healingHistory =
          recordAttempt st.healingHistory ⟨msg, "none", false, 0⟩) ∧
    (∀ (st : HealState) (msg : String) (pre post : List HealingStrategy)
        (s : HealingStrategy) (b : Bool),
        st.strategies = pre ++ s :: post →
        (∀ t ∈ pre, t.errorPattern msg = false) →
        s.errorPattern msg = true →
        s.healingAction = .ok b →
        (heal st msg).1 = b ∧
        (heal st msg).2.healingHistory =
          recordAttempt st.healingHistory ⟨msg, s.name, b, 0⟩) ∧
    (∀ (st : HealState) (msg : String) (pre post : List HealingStrategy)
        (s : HealingStrategy) (err : Unit),
        st.strategies = pre ++ s :: post →
        (∀ t ∈ pre, t.errorPattern msg = false) →
        s.errorPattern msg = true →
        s.healingAction = .error err →
        (heal st msg).1 = false ∧
        (heal st msg).2.healingHistory =
          recordAttempt st.healingHistory ⟨msg, s.name, false, 0⟩) ∧
    (∀ (st : HealState) (msg : String),
        (heal st msg).2.strategies = st.strategies) ∧
    (heal initialHealState "Network timeout error").1 = true ∧
    (heal initialHealState "Network timeout error").2.healingHistory =
      [⟨"Network timeout error", "Network Retry", true, 0⟩] ∧
    (heal initialHealState "Some unknown error type").1 = false ∧
    (heal initialHealState "Some unknown error type").2.healingHistory =
      [⟨"Some unknown error type", "none", false, 0⟩] := by
  refine ⟨?_, ?_, ?_, ?_, by decide, by decide, by decide, by decide⟩
  · intro st msg hnone
    have hfind : st.strategies.find? (fun s => s.errorPattern msg) = none :=
      List.find?_eq_none.mpr (fun x hx => by simp [hnone x hx])
    constructor <;> simp [heal, hfind]
  · intro st msg pre post s b hsplit hpre hs hact
    have hfind : st.strategies.find? (fun t => t.errorPattern msg) = some s := by
      rw [hsplit]; exact find?_first_match _ pre post s (fun t ht => hpre t ht) hs
    constructor <;> simp [heal, hfind, hact]
  · intro st msg pre post s err hsplit hpre hs hact
    have hfind : st.strategies.find? (fun t => t.errorPattern msg) = some s := by
      rw [hsplit]; exact find?_first_match _ pre post s (fun t ht => hpre t ht) hs
    constructor <;> simp [heal, hfind, hact]
  · intro st msg
    rcases hfind : st.strategies.find? (fun s => s.errorPattern msg) with _ | s
    · simp [heal, hfind]
    · rcases hact : s.healingAction with _ | b <;> simp [heal, hfind, hact]

/-- Witness for C5: a strategy whose action throws is caught and recorded as a
failed attempt naming the strategy, on a concrete one-strategy engine. -/
theorem heal_spec_witness :
    (heal ⟨[⟨"always", "Always", "", .high, fun _ => true, .error ()⟩], []⟩ "boom").1 =
      false ∧
    (heal ⟨[⟨"always", "Always", "", .high, fun _ => true, .error ()⟩], []⟩
        "boom").2.healingHistory = [⟨"boom", "Always", false, 0⟩] := by
  have h := heal_spec.2.2.1
    ⟨[⟨"always", "Always", "", .high, fun _ => true, .error ()⟩], []⟩ "boom"
    [] [] ⟨"always", "Always", "", .high, fun _ => true, .error ()⟩ ()
    rfl (by simp) rfl rfl
  exact ⟨h.1, h.2.trans (by simp [recordAttempt])⟩

/-- C2: on a successful operation with continuous improvement enabled,
`execute` attaches exactly one ENHANCED-impact MEDIUM-priority enhancement,
plus a second EXCEPTIONAL-impact LOW-priority one exactly when the returned
value is neither null nor undefined; with continuous improvement disabled the
result carries no enhancements and no recommendations. -/
theorem execute_enhancements_spec {α : Type} (cfg : ProtocolConfig)
    (st : ProtoState) (result : Option α) (name : String) :
    (cfg.enableContinuousImprovement = true →
      (resultEnhancements (execute cfg st (.ok result) name).1).map
          (fun e => (e.impact, e.priority)) =
        [(.enhanced, .medium)] ++
          (if result.isSome then [(.exceptional, .low)] else []) ∧
      (execute cfg st (.ok result) name).2.enhancements =
        st.enhancements ++ [baselineEnhancement name] ++
          (if result.isSome then [validationEnhancement] else [])) ∧
    (cfg.enableContinuousImprovement = false →
      resultEnhancements (execute cfg st (.ok result) name).1 = [] ∧
      resultRecommendations (execute cfg st (.ok result) name).1 = []) := by
  constructor
  · intro hci
    cases result <;>
      simp [execute, applyEnhancements, generateRecommendations, hci,
        createSuccessResult, resultEnhancements, baselineEnhancement,
        validationEnhancement]
  · intro hci
    cases result <;>
      simp [execute, applyEnhancements, generateRecommendations, hci,
        createSuccessResult, resultEnhancements, resultRecommendations]

/-- Witness for C2: with the default configuration, a successful operation
returning a non-null value gets both enhancements, and the tracker ledger
records them. -/
theorem execute_enhancements_spec_witness :
    (resultEnhancements (execute defaultConfig initProtoState
        (Except.ok (some 0) : Except String (Option ℕ)) "op").1).map
      (fun e => (e.impact, e.priority)) =
      [(.enhanced, .medium), (.exceptional, .low)] ∧
    (execute defaultConfig initProtoState
        (Except.ok (some 0) : Except String (Option ℕ)) "op").2.enhancements =
      [baselineEnhancement "op", validationEnhancement] := by
  have h := execute_enhancements_spec defaultConfig initProtoState
    (some 0) "op"
  have h1 := h.1 rfl
  exact ⟨h1.1.trans (by simp), h1.2.trans (by simp [initProtoState])⟩

/-- C3: on a successful operation with continuous improvement enabled,
`execute` creates exactly the MEDIUM-priority Optimize Performance
recommendation (impact 75, category performance) followed by the LOW-priority
Enhanced Monitoring recommendation (impact 50, category monitoring); the
returned list is capped at `maxRecommendations` while the stored ledger keeps
both entries. -/
theorem execute_recommendations_spec {α : Type} (cfg : ProtocolConfig)
    (st : ProtoState) (result : Option α) (name : String)
    (hci : cfg.enableContinuousImprovement = true) :
    resultRecommendations (execute cfg st (.ok result) name).1 =
      [perfRecommendation name, monitoringRecommendation name].take
        cfg.maxRecommendations ∧
    (execute cfg st (.ok result) name).2.recommendations =
      st.recommendations ++ [perfRecommendation name, monitoringRecommendation name] ∧
    (perfRecommendation name).title = "Optimize Performance" ∧
    (perfRecommendation name).priority = .medium ∧
    (perfRecommendation name).estimatedImpact = 75 ∧
    (perfRecommendation name).category = "performance" ∧
    (monitoringRecommendation name).title = "Enhanced Monitoring" ∧
    (monitoringRecommendation name).priority = .low ∧
    (monitoringRecommendation name).estimatedImpact = 50 ∧
    (monitoringRecommendation name).category = "monitoring" := by
  refine ⟨?_, ?_, rfl, rfl, rfl, rfl, rfl, rfl, rfl, rfl⟩ <;>
    cases result <;>
      simp [execute, applyEnhancements, generateRecommendations, hci,
        createSuccessResult, resultRecommendations]

/-- Witness for C3: with `maxRecommendations = 1` the returned list is capped
to the performance recommendation while the ledger stores both. -/
theorem execute_recommendations_spec_witness :
    resultRecommendations (execute
        { defaultConfig with maxRecommendations := 1 } initProtoState
        (Except.ok (some 0) : Except String (Option ℕ)) "op").1 =
      [perfRecommendation "op"] ∧
    (execute { defaultConfig with maxRecommendations := 1 } initProtoState
        (Except.ok (some 0) : Except String (Option ℕ)) "op").2.recommendations =
      [perfRecommendation "op", monitoringRecommendation "op"] := by
  have h := execute_recommendations_spec
    { defaultConfig with maxRecommendations := 1 } initProtoState
    (some 0) "op" rfl
  exact ⟨h.1.trans (by simp), h.2.1.trans (by simp [initProtoState])⟩

/-- C4: every `execute` call, whatever the outcome, raises
`totalOperations` by exactly one and exactly one of the success/failure
counters, preserving `totalOperations = successfulOperations +
failedOperations`; a failed (possibly healed) call raises `failedOperations`,
never `successfulOperations`. -/
theorem execute_metrics_spec {α : Type} (cfg : ProtocolConfig)
    (st : ProtoState) (op : Except String (Option α)) (name : String) :
    (execute cfg st op name).2.metrics.totalOperations =
      st.metrics.totalOperations + 1 ∧
    (execute cfg st op name).2.metrics.successfulOperations +
      (execute cfg st op name).2.metrics.failedOperations =
      st.metrics.successfulOperations + st.metrics.failedOperations + 1 ∧
    (st.metrics.totalOperations =
        st.metrics.successfulOperations + st.metrics.failedOperations →
      (execute cfg st op name).2.metrics.totalOperations =
        (execute cfg st op name).2.metrics.successfulOperations +
        (execute cfg st op name).2.metrics.failedOperations) ∧
    (∀ e : String, op = .error e →
      (execute cfg st op name).2.metrics.failedOperations =
        st.metrics.failedOperations + 1 ∧
      (execute cfg st op name).2.metrics.successfulOperations =
        st.metrics.successfulOperations) := by
  have hcore :
      (execute cfg st op name).2.metrics.totalOperations =
        st.metrics.totalOperations + 1 ∧
      ((execute cfg st op name).2.metrics.successfulOperations =
          st.metrics.successfulOperations + 1 ∧
        (execute cfg st op name).2.metrics.failedOperations =
          st.metrics.failedOperations) ∨
      ((execute cfg st op name).2.metrics.totalOperations =
          st.metrics.totalOperations + 1 ∧
        (execute cfg st op name).2.metrics.successfulOperations =
          st.metrics.successfulOperations ∧
        (execute cfg st op name).2.metrics.failedOperations =
          st.metrics.failedOperations + 1) := by
    cases op with
    | ok result =>
        left
        cases result <;>
          cases hci : cfg.enableContinuousImprovement <;>
            simp [execute, applyEnhancements, generateRecommendations, hci]
    | error e =>
        right
        cases hsh : cfg.enableSelfHealing <;>
          simp [execute, attemptSelfHealing, createSuccessResult, hsh]
  rcases hcore with ⟨htot, hsucc, hfail⟩ | ⟨htot, hsucc, hfail⟩
  · refine ⟨htot, by omega, by omega, ?_⟩
    intro e he
    cases op with
    | ok r => cases he
    | error e' =>
        exfalso
        have : (execute cfg st (.error e' : Except String (Option α)) name).2.metrics.failedOperations =
            st.metrics.failedOperations + 1 := by
          cases hsh : cfg.enableSelfHealing <;>
            simp [execute, attemptSelfHealing, createSuccessResult, hsh]
        omega
  · exact ⟨htot, by omega, by omega, fun e he => ⟨hfail, hsucc⟩⟩

/-- Witness for C4: a failing operation under the default configuration takes
the fresh instance from 0 to 1 total and 1 failed operation, keeping the
counter identity. -/
theorem execute_metrics_spec_witness :
    (execute defaultConfig initProtoState
        (Except.error "x" : Except String (Option ℕ)) "op").2.metrics.totalOperations =
      1 ∧
    (execute defaultConfig initProtoState
        (Except.error "x" : Except String (Option ℕ)) "op").2.metrics.totalOperations =
      (execute defaultConfig initProtoState
        (Except.error "x" : Except String (Option ℕ)) "op").2.metrics.successfulOperations +
      (execute defaultConfig initProtoState
        (Except.error "x" : Except String (Option ℕ)) "op").2.metrics.failedOperations ∧
    (execute defaultConfig initProtoState
        (Except.error "x" : Except String (Option ℕ)) "op").2.metrics.failedOperations = 1 := by
  have h := execute_metrics_spec defaultConfig initProtoState
    (Except.error "x" : Except String (Option ℕ)) "op"
  have h4 := h.2.2.2 "x" rfl
  exact ⟨h.1, h.2.2.1 rfl, h4.1⟩

/-- A pattern stored as a running average `c / n` evolves under further
observations into the running average over the extended history. -/
theorem observeAll_running_average (name : String) (l : List Bool) :
    ∀ (st : LearnState) (n : ℕ) (c : ℚ), 0 < n →
      st.patterns name = some ⟨n, c / (n : ℚ)⟩ →
      (observeAll st name l).patterns name =
        some ⟨n + l.length,
          (c + (l.count true : ℚ)) / ((n : ℚ) + (l.length : ℚ))⟩ := by
  induction l with
  | nil =>
      intro st n c hn hst
      simpa [observeAll] using hst
  | cons b bs ih =>
      intro st n c hn hst
      have hstep : (recordPattern st name b).patterns name =
          some ⟨n + 1, (c + (if b then (1 : ℚ) else 0)) / ((n + 1 : ℕ) : ℚ)⟩ := by
        simp only [recordPattern, hst, if_pos rfl]
        have hne : ((n : ℚ)) ≠ 0 := Nat.cast_ne_zero.mpr (Nat.pos_iff_ne_zero.mp hn)
        have : c / (n : ℚ) * (n : ℚ) = c := div_mul_cancel₀ c hne
        simp [this]
      have hrec := ih (recordPattern st name b) (n + 1)
        (c + (if b then (1 : ℚ) else 0)) (Nat.succ_pos n) hstep
      rw [observeAll, List.foldl_cons]
      rw [show (List.foldl (fun s b => recordPattern s name b)
          (recordPattern st name b) bs) = observeAll (recordPattern st name b) name bs
        from rfl]
      rw [hrec]
      congr 1
      have hcount : ((b :: bs).count true : ℚ) =
          (bs.count true : ℚ) + (if b then (1 : ℚ) else 0) := by
        cases b <;> simp [List.count_cons]
      refine congrArg₂ _ (by simp [Nat.add_comm, Nat.add_assoc, Nat.add_left_comm]) ?_
      rw [hcount]
      simp only [List.length_cons]
      push_cast
      ring_nf

/-- C9: `recordPattern` creates an unseen name with frequency 1 and rate 1 or
0, updates a seen name by the exact running-average formula, and therefore
the stored rate always equals the fraction of successful observations; the
sequence true, true, true, false yields frequency 4 and rate 3/4 exactly. -/
theorem recordPattern_spec :
    (∀ (st : LearnState) (name : String) (success : Bool),
        st.patterns name = none →
        (recordPattern st name success).patterns name =
          some ⟨1, if success then 1 else 0⟩) ∧
    (∀ (st : LearnState) (name : String) (success : Bool) (p : LearningPattern),
        st.patterns name = some p →
        (recordPattern st name success).patterns name =
          some ⟨p.frequency + 1,
            (p.successRate * (p.frequency : ℚ) + (if success then 1 else 0)) /
              ((p.frequency : ℚ) + 1)⟩) ∧
    (∀ (st : LearnState) (name : String) (l : List Bool),
        st.patterns name = none → l ≠ [] →
        (observeAll st name l).patterns name =
          some ⟨l.length, (l.count true : ℚ) / (l.length : ℚ)⟩) ∧
    ((observeAll emptyLearnState "operation" [true, true, true, false]).patterns
        "operation" = some ⟨4, 3 / 4⟩) := by
  have hseen : ∀ (st : LearnState) (name : String) (success : Bool)
      (p : LearningPattern), st.patterns name = some p →
      (recordPattern st name success).patterns name =
        some ⟨p.frequency + 1,
          (p.successRate * (p.frequency : ℚ) + (if success then 1 else 0)) /
            ((p.frequency : ℚ) + 1)⟩ := by
    intro st name success p hst
    simp only [recordPattern, hst, if_pos rfl]
    push_cast
    rfl
  have hfresh : ∀ (st : LearnState) (name : String) (l : List Bool),
      st.patterns name = none → l ≠ [] →
      (observeAll st name l).patterns name =
        some ⟨l.length, (l.count true : ℚ) / (l.length : ℚ)⟩ := by
    intro st name l hst hne
    cases l with
    | nil => exact absurd rfl hne
    | cons b bs =>
        have hstep : (recordPattern st name b).patterns name =
            some ⟨1, (if b then (1 : ℚ) else 0) / ((1 : ℕ) : ℚ)⟩ := by
          simp only [recordPattern, hst, if_pos rfl]
          simp
        have h := observeAll_running_average name bs (recordPattern st name b)
          1 (if b then (1 : ℚ) else 0) Nat.one_pos hstep
        rw [observeAll, List.foldl_cons]
        rw [show (List.foldl (fun s b => recordPattern s name b)
            (recordPattern st name b) bs) = observeAll (recordPattern st name b) name bs
          from rfl]
        rw [h]
        congr 1
        have hcount : ((b :: bs).count true : ℚ) =
            (if b then (1 : ℚ) else 0) + (bs.count true : ℚ) := by
          cases b <;> simp [List.count_cons] <;> ring
        refine congrArg₂ _ (by simp [Nat.add_comm]) ?_
        rw [hcount]
        simp only [List.length_cons]
        push_cast
        ring_nf
  refine ⟨?_, hseen, hfresh, ?_⟩
  · intro st name success hst
    simp [recordPattern, hst]
  · have h := hfresh emptyLearnState "operation" [true, true, true, false]
      rfl (by simp)
    rw [h]
    norm_num

/-- Witness for C9: the fraction clause instantiated on the two-observation
sequence true, false starting from the empty learner. -/
theorem recordPattern_spec_witness :
    (observeAll emptyLearnState "p" [true, false]).patterns "p" =
      some ⟨2, 1 / 2⟩ := by
  have h := recordPattern_spec.2.2.1 emptyLearnState "p" [true, false]
    rfl (by simp)
  rw [h]
  norm_num

/-- C1 counterexample: on the error "Some unknown error type" the Healing
Engine's `heal` reports failure (no strategy matches), yet `execute` with
self-healing enabled still returns the synthetic healed success result
instead of re-raising — the orchestrator never consults the engine. -/
theorem execute_heal_disagreement :
    (heal initialHealState "Some unknown error type").1 = false ∧
    (execute defaultConfig initProtoState
        (Except.error "Some unknown error type" : Except String (Option Unit))
        "operation").1 =
      Except.ok (createSuccessResult (.healed "Some unknown error type") []
        [healingRecommendation "operation"]) :=
  ⟨by decide, rfl⟩

/-- C1 (amended): when an operation throws and self-healing is enabled,
`execute` always returns the synthetic healed success result — payload
`healed` with the original error text, no enhancements, exactly one
HIGH-priority impact-90 Self-Healing Action recommendation, which is also
appended to the stored ledger; the internal healing attempt succeeds
unconditionally without consulting the Healing Engine.  When self-healing is
disabled, the original error is re-raised. -/
theorem execute_selfHealing_spec {α : Type} (cfg : ProtocolConfig)
    (st : ProtoState) (msg name : String) :
    (cfg.enableSelfHealing = true →
      (execute cfg st (Except.error msg : Except String (Option α)) name).1 =
        Except.ok (createSuccessResult (.healed msg) []
          [healingRecommendation name]) ∧
      (execute cfg st (Except.error msg : Except String (Option α))
          name).2.recommendations =
        st.recommendations ++ [healingRecommendation name] ∧
      (healingRecommendation name).priority = .high ∧
      (healingRecommendation name).estimatedImpact = 90 ∧
      (healingRecommendation name).title = "Self-Healing Action") ∧
    (cfg.enableSelfHealing = false →
      (execute cfg st (Except.error msg : Except String (Option α)) name).1 =
        Except.error msg) := by
  constructor
  · intro hsh
    refine ⟨?_, ?_, rfl, rfl, rfl⟩ <;>
      simp [execute, attemptSelfHealing, createSuccessResult, hsh]
  · intro hsh
    simp [execute, attemptSelfHealing, createSuccessResult, hsh]

/-- Witness for C1: the healed-success branch under the default configuration
and the re-raise branch with self-healing disabled, on a concrete error. -/
theorem execute_selfHealing_spec_witness :
    (execute defaultConfig initProtoState
        (Except.error "boom" : Except String (Option ℕ)) "op").1 =
      Except.ok (createSuccessResult (.healed "boom") []
        [healingRecommendation "op"]) ∧
    (execute { defaultConfig with enableSelfHealing := false } initProtoState
        (Except.error "boom" : Except String (Option ℕ)) "op").1 =
      Except.error "boom" := by
  have h1 := (execute_selfHealing_spec defaultConfig initProtoState
    "boom" "op" (α := ℕ)).1 rfl
  have h2 := (execute_selfHealing_spec
    { defaultConfig with enableSelfHealing := false } initProtoState
    "boom" "op" (α := ℕ)).2 rfl
  exact ⟨h1.1, h2⟩

end Protocol110
